import Mathlib

/-!
Verification of the envelope trading engine (`kiwoomSecurities`).

Shallow embedding of the decision logic of `trading_logic.py`,
`technical_analysis.py` and the `RateLimiter` of `kiwoom_api.py`.

Modelling conventions:
* Prices and share quantities are machine integers in the source (Korean
  equities have integral prices); they are modelled as `Nat`.
* Python `float` intermediates (moving averages, `avg_price * 1.0295`,
  `price * (1 - pct/100)`, `qty * 0.30`) are modelled exactly over `ℚ`;
  Python's `int(...)` truncation toward zero agrees with `Int.floor` on the
  nonnegative values that occur at every call site and is modelled so.
* Broker calls (`sendOrder`, `cancel_*`) are external effects: the embedded
  step functions return the orders that are sent and flags for the cancels
  that are issued, next to the new position / pending-order ledger state.
* Wall-clock time in the rate limiter is an explicit `ℚ` parameter.
-/

/-! ## Tick arithmetic (`_get_tick_size`, `_floor_to_tick`, `_ceil_to_tick`) -/

/-- `_get_tick_size` of `trading_logic.py` / `technical_analysis.py`:
tick ladder by price band. -/
def getTickSize (price : Nat) : Nat :=
  if price < 1000 then 1
  else if price < 5000 then 5
  else if price < 10000 then 10
  else if price < 50000 then 50
  else if price < 100000 then 100
  else if price < 500000 then 500
  else 1000

/-- `_floor_to_tick` on an integer price: `(int(p) // tick) * tick`. -/
def floorToTick (price : Nat) : Nat :=
  price / getTickSize price * getTickSize price

/-- `_ceil_to_tick` on an integer price: `((int(p) + tick - 1) // tick) * tick`. -/
def ceilToTick (price : Nat) : Nat :=
  (price + getTickSize price - 1) / getTickSize price * getTickSize price

/-- Python `int(...)` applied to the nonnegative rational intermediates of the
source (truncation toward zero; all call sites pass nonnegative values, where
it agrees with the floor used here). -/
def ratTruncToNat (p : ℚ) : Nat := (⌊p⌋).toNat

/-- `_floor_to_tick` on a fractional price: truncate, then floor to the tick. -/
def floorToTickQ (p : ℚ) : Nat := floorToTick (ratTruncToNat p)

/-- `_ceil_to_tick` on a fractional price: truncate, then ceil to the tick. -/
def ceilToTickQ (p : ℚ) : Nat := ceilToTick (ratTruncToNat p)

/-! ## `TechnicalAnalysis` (pure candle math) -/

/-- `get_ma_from_candles`: candles are most-recent-first; only the close
prices matter, so a candle list is embedded as its list of closes. -/
def getMaFromCandles (closes : List ℚ) (period : Nat) : Option ℚ :=
  if closes.isEmpty ∨ closes.length < period then none
  else some ((closes.take period).sum / period)

/-- The `buy` / `sell` configuration keys consumed by the engine
(already resolved against their defaults, as `_get_cfg_int` does). -/
structure Config where
  envelopePeriod : Nat
  envelopePercent : Nat
  envelopeBuyPercent : Nat
  maxBuyCount : Nat
  additionalBuyDropPercent : Nat
  buyAmountPerStock : Nat
  maxHoldingStocks : Nat
  deriving Repr, DecidableEq

/-- The defaults of `config.py`:
`envelope_period=20, envelope_percent=19, envelope_buy_percent=20,
max_buy_count=3, additional_buy_drop_percent=10,
buy_amount_per_stock=1_000_000, max_holding_stocks=3`. -/
def defaultConfig : Config :=
  { envelopePeriod := 20
    envelopePercent := 19
    envelopeBuyPercent := 20
    maxBuyCount := 3
    additionalBuyDropPercent := 10
    buyAmountPerStock := 1000000
    maxHoldingStocks := 3 }

/-! ## Positions and the pending-order ledger -/

/-- A per-instrument position record (`config.get_position`).  Timestamps
(`last_update`, `created_at`) and display fields (`name`, `code`) carry no
decision logic and are omitted. -/
structure Position where
  quantity : Nat
  avgPrice : Nat
  initialQuantity : Nat
  buyCount : Nat
  soldTargets : List String
  sellOccurred : Bool
  stoplossTriggered : Bool
  stoplossPrice : Nat
  deriving Repr, DecidableEq

/-- A ledger entry (`save_pending_order` payload).  `buyCount` is present on
buy entries only and `targetName` on sell entries only, matching the dict
keys of the source; `persist` defaults to `false` when absent. -/
structure PendingOrder where
  orderType : String
  quantity : Nat
  price : Nat
  buyCount : Option Nat
  targetName : Option String
  persist : Bool
  deriving Repr, DecidableEq

/-- `Config.save_pending_order`: appends unless an entry with the same
`(order_type, price, buy_count)` already exists. -/
def savePendingOrder (ledger : List PendingOrder) (o : PendingOrder) : List PendingOrder :=
  if ledger.any fun e =>
      e.orderType = o.orderType ∧ e.price = o.price ∧ e.buyCount = o.buyCount then
    ledger
  else ledger ++ [o]

/-- `Config.clear_pending_orders_for_stock(code, order_type=t)`:
drop every entry of the given order type. -/
def clearPendingOrdersOfType (ledger : List PendingOrder) (t : String) : List PendingOrder :=
  ledger.filter fun o => o.orderType ≠ t

/-- `Config.remove_pending_order(code, order_type=t, price=p)`:
drop every entry of the given type at the given price. -/
def removePendingOrderAtPrice (ledger : List PendingOrder) (t : String) (p : Nat) :
    List PendingOrder :=
  ledger.filter fun o => ¬ (o.orderType = t ∧ o.price = p)

/-! ## `TradingSignal.check_buy_signal` -/

/-- The fields of a positive buy signal that the engine consumes
(`buy_count`, `target_price`). -/
structure BuySignal where
  buyCount : Nat
  targetPrice : Nat
  deriving Repr, DecidableEq

/-- `check_buy_signal`: first-entry signal when the position is absent or
empty and the price reaches the `MA·(1 - triggerPct/100)` band; the limit
price is the `MA·(1 - buyPct/100)` support floored to the tick plus one tick.
For a held position the function never signals (staged buys are pre-placed). -/
def checkBuySignal (cfg : Config) (currentPrice : Nat) (candles : List ℚ)
    (position : Option Position) : Option BuySignal :=
  match getMaFromCandles candles cfg.envelopePeriod with
  | none => none
  | some ma =>
    let triggerPrice : ℚ := ma * (1 - (cfg.envelopePercent : ℚ) / 100)
    let supportLower : ℚ := ma * (1 - (cfg.envelopeBuyPercent : ℚ) / 100)
    let firstEntry := match position with
      | none => true
      | some p => p.quantity = 0
    if firstEntry then
      if (currentPrice : ℚ) ≤ triggerPrice then
        let supportFloor := floorToTickQ supportLower
        some { buyCount := 1, targetPrice := supportFloor + getTickSize supportFloor }
      else none
    else none

/-- The rejection checks and quantity computation of `_execute_buy`
(retry loop and broker result are external; a returned pair is the
`(quantity, price)` of the limit buy that is sent).  Python's
`buy_amount // buy_price` with `buy_price = 0` raises and is caught by the
surrounding handler, so no order is sent, which the `none` result models. -/
def executeBuy (cfg : Config) (position : Option Position) (signal : BuySignal)
    (currentPrice : Nat) : Option (Nat × Nat) :=
  let buyPrice := if signal.targetPrice = 0 then currentPrice else signal.targetPrice
  let blocked := match position with
    | none => false
    | some p =>
      p.stoplossTriggered ∨ p.sellOccurred ∨
        (signal.buyCount = 1 ∧ p.quantity = 0 ∧ 0 < p.avgPrice)
  if blocked then none
  else if buyPrice = 0 then none
  else
    let quantity := cfg.buyAmountPerStock / buyPrice
    if quantity = 0 then none else some (quantity, buyPrice)

/-- `_place_additional_buy_orders`: the 2nd/3rd staged limit buys placed right
after the 1st buy order, as `(buy_count, quantity, price)` triples.  The 2nd
price is `floorToTick(first·(1 - drop/100))` plus one tick; the 3rd is derived
from the final 2nd price the same way.  A zero 2nd floor aborts both. -/
def placeAdditionalBuyOrders (cfg : Config) (firstBuyPrice : Nat) :
    List (Nat × Nat × Nat) :=
  let drop : ℚ := 1 - (cfg.additionalBuyDropPercent : ℚ) / 100
  let secondFloor := floorToTickQ ((firstBuyPrice : ℚ) * drop)
  if secondFloor = 0 then []
  else
    let secondPrice := secondFloor + getTickSize secondFloor
    let thirdFloor := floorToTickQ ((secondPrice : ℚ) * drop)
    let thirdPrice := if thirdFloor = 0 then 0 else thirdFloor + getTickSize thirdFloor
    let second :=
      if 2 ≤ cfg.maxBuyCount ∧ 0 < cfg.buyAmountPerStock / secondPrice then
        [(2, cfg.buyAmountPerStock / secondPrice, secondPrice)]
      else []
    let third :=
      if 3 ≤ cfg.maxBuyCount ∧ 0 < thirdPrice ∧ 0 < cfg.buyAmountPerStock / thirdPrice then
        [(3, cfg.buyAmountPerStock / thirdPrice, thirdPrice)]
      else []
    second ++ third

/-! ## Sell planning (`_compute_sell_plan_quantities`, `check_sell_signals`,
`_calculate_sell_orders`) -/

/-- The quantity loop of `_compute_sell_plan_quantities`: every ratio but the
last contributes `int(total · r/100)`; the last takes `max(total - used, 0)`. -/
def sellPlanAux (total : Nat) : List Nat → Nat → List Nat
  | [], _ => []
  | [_], used => [total - used]
  | r :: rest, used => total * r / 100 :: sellPlanAux total rest (used + total * r / 100)

/-- The defensive final clamp of `_compute_sell_plan_quantities`:
`qs[-1] = max(qs[-1] - diff, 0)`. -/
def clampLast : List Nat → Nat → List Nat
  | [], _ => []
  | [q], d => [q - d]
  | q :: rest, d => q :: clampLast rest d

/-- `TradingSignal._compute_sell_plan_quantities`. -/
def computeSellPlanQuantities (total : Nat) (ratios : List Nat) : List Nat :=
  if total = 0 then List.replicate ratios.length 0
  else
    let qs := sellPlanAux total ratios 0
    if total < qs.sum then clampLast qs (qs.sum - total) else qs

/-- One planned sell order (an element of the lists returned by
`check_sell_signals` and `_calculate_sell_orders`). -/
structure SellOrder where
  targetName : String
  quantity : Nat
  price : Nat
  deriving Repr, DecidableEq

/-- The `_append_order_if_needed` closure of `check_sell_signals`: skip a rung
whose quantity is zero, whose target already sold, or with no uncommitted
quantity left; otherwise commit `min qty remaining`.  Returns (orders, used). -/
def appendOrderIfNeeded (currentQty : Nat) (soldTargets : List String)
    (name : String) (qty price used : Nat) : List SellOrder × Nat :=
  if qty = 0 ∨ name ∈ soldTargets ∨ currentQty - used = 0 then ([], used)
  else
    let qty2 := min qty (currentQty - used)
    ([{ targetName := name, quantity := qty2, price := price }], used + qty2)

/-- The three sequential `_append_order_if_needed` calls of
`check_sell_signals` (identical blocks in the source, threaded over the
committed quantity), over `(name, qty, price)` rung specifications. -/
def planOrders (currentQty : Nat) (soldTargets : List String) :
    List (String × Nat × Nat) → Nat → List SellOrder × Nat
  | [], used => ([], used)
  | (n, q, p) :: rest, used =>
    let r := appendOrderIfNeeded currentQty soldTargets n q p used
    let r2 := planOrders currentQty soldTargets rest r.2
    (r.1 ++ r2.1, r2.2)

/-- `TradingSignal.check_sell_signals`: the stop-loss order (full remaining
quantity at the floored current price) when a sale already occurred and the
price fell to the average, else the list of limit sell orders that should be
outstanding.  The final priority sort is stable and all plan entries share
priority 3, so it is the identity and is omitted. -/
def checkSellSignals (cfg : Config) (currentPrice : Nat) (candles : List ℚ)
    (position : Option Position) : List SellOrder :=
  match position with
  | none => []
  | some pos =>
    if pos.quantity = 0 then []
    else if pos.avgPrice = 0 then []
    else
      let ma := getMaFromCandles candles cfg.envelopePeriod
      let maTargetName := toString cfg.envelopePeriod ++ "일선"
      if pos.soldTargets ≠ [] ∧ "스탑로스" ∉ pos.soldTargets ∧
          currentPrice ≤ pos.avgPrice then
        [{ targetName := "스탑로스", quantity := pos.quantity
           price := floorToTick currentPrice }]
      else
        -- 30/30/30/10 is hard-coded in the source (config values are read
        -- but overridden right below the read).
        let baseQty := if pos.initialQuantity = 0 then pos.quantity else pos.initialQuantity
        match computeSellPlanQuantities baseQty [30, 30, 30, 10] with
        | [q1, q2, q3, _qMa] =>
          let p1 := ceilToTickQ ((pos.avgPrice : ℚ) * (1 + (295 : ℚ) / 10000))
          let p2 := ceilToTickQ ((pos.avgPrice : ℚ) * (1 + (495 : ℚ) / 10000))
          let p3 := ceilToTickQ ((pos.avgPrice : ℚ) * (1 + (695 : ℚ) / 10000))
          let r := planOrders pos.quantity pos.soldTargets
            [("익절1", q1, p1), ("익절2", q2, p2), ("익절3", q3, p3)] 0
          let maPart : List SellOrder :=
            match ma with
            | none => []
            | some m =>
              if m ≠ 0 ∧ 0 < pos.quantity - r.2 ∧ maTargetName ∉ pos.soldTargets then
                [{ targetName := maTargetName, quantity := pos.quantity - r.2
                   price := ceilToTickQ m }]
              else []
          r.1 ++ maPart
        | _ => []   -- unreachable: the 4-ratio list always yields 4 quantities

/-! ## `AutoTrader._calculate_sell_orders` -/

/-- One 익절 rung block of `_calculate_sell_orders`: placed when the target is
unsold, the committed quantity plus the rung quantity still fits the current
quantity, and the (ceiled) price is nonzero (`if priceN:`).
Returns (orders, new committed quantity). -/
def appendRung (currentQty : Nat) (soldTargets : List String)
    (name : String) (qty price used : Nat) : List SellOrder × Nat :=
  if name ∉ soldTargets ∧ used + qty ≤ currentQty ∧ price ≠ 0 then
    ([{ targetName := name, quantity := min qty (currentQty - used), price := price }],
      used + min qty (currentQty - used))
  else ([], used)

/-- The three sequential 익절 blocks of `_calculate_sell_orders` (identical
blocks in the source, threaded over the committed quantity), over
`(name, qty, price)` rung specifications. -/
def placeRungs (currentQty : Nat) (soldTargets : List String) :
    List (String × Nat × Nat) → Nat → List SellOrder × Nat
  | [], used => ([], used)
  | (n, q, p) :: rest, used =>
    let r := appendRung currentQty soldTargets n q p used
    let r2 := placeRungs currentQty soldTargets rest r.2
    (r.1 ++ r2.1, r2.2)

/-- `_calculate_sell_orders`: the 익절1/익절2/익절3 rungs against `avg_price`
with `int(initial·0.30)` shares each (forced to at least 1), then the 20일선
rung with all still-uncommitted shares at the ceiled MA.  The forced `q_ma`
value is computed by the source but never used (the rung takes `remaining`),
and is likewise unused here. -/
def calculateSellOrders (avgPrice initialQty currentQty : Nat) (ma20 : Option ℚ)
    (soldTargets : List String) : List SellOrder :=
  let q0 := initialQty * 3 / 10
  let q := if q0 = 0 then 1 else q0
  let p1 := ceilToTickQ ((avgPrice : ℚ) * (1 + (295 : ℚ) / 10000))
  let p2 := ceilToTickQ ((avgPrice : ℚ) * (1 + (495 : ℚ) / 10000))
  let p3 := ceilToTickQ ((avgPrice : ℚ) * (1 + (695 : ℚ) / 10000))
  let r := placeRungs currentQty soldTargets
    [("익절1", q, p1), ("익절2", q, p2), ("익절3", q, p3)] 0
  let maPart : List SellOrder :=
    match ma20 with
    | none => []
    | some m =>
      if m ≠ 0 ∧ "20일선" ∉ soldTargets ∧ 0 < currentQty - r.2 ∧ ceilToTickQ m ≠ 0 then
        [{ targetName := "20일선", quantity := currentQty - r.2, price := ceilToTickQ m }]
      else []
  r.1 ++ maPart

/-! ## Stop-loss trigger and execution -/

/-- `_should_trigger_stoploss`: a sale already occurred (`sold_targets`
non-empty), the stop-loss itself has not, the flag is unset, the average
price is positive, and the price fell to (or under) the average. -/
def shouldTriggerStoploss (position : Option Position) (currentPrice : Nat) : Bool :=
  match position with
  | none => false
  | some pos =>
    if pos.stoplossTriggered then false
    else if pos.soldTargets.isEmpty then false
    else if "스탑로스" ∈ pos.soldTargets then false
    else if pos.avgPrice = 0 then false
    else currentPrice ≤ pos.avgPrice

/-- Result of `_execute_stoploss`: the updated position, the updated
per-instrument ledger, and the limit sell that is sent.  `cancelledAll`
records the broker-side `cancel_all_orders_for_stock` call. -/
structure StoplossResult where
  position : Position
  ledger : List PendingOrder
  orderQty : Nat
  orderPrice : Nat
  cancelledAll : Bool
  deriving Repr, DecidableEq

/-- `_execute_stoploss`: floor the current price to the tick (falling back to
`max(1, avg_price - tick)` if that is zero), cancel every outstanding order of
the instrument (broker side, plus pending buys and sells in the ledger), mark
the position, persist the stop-loss entry, and send the full-quantity limit
sell.  Returns `none` when the position holds nothing (the source returns
without acting). -/
def executeStoploss (pos : Position) (currentPrice : Nat)
    (ledger : List PendingOrder) : Option StoplossResult :=
  if pos.quantity = 0 then none
  else
    let tick := getTickSize currentPrice
    let floored := currentPrice / tick * tick
    let stoplossPrice := if floored = 0 then max 1 (pos.avgPrice - tick) else floored
    let ledger1 := clearPendingOrdersOfType ledger "buy"
    let ledger2 := clearPendingOrdersOfType ledger1 "sell"
    let newSold :=
      if "스탑로스" ∈ pos.soldTargets then pos.soldTargets
      else pos.soldTargets ++ ["스탑로스"]
    let pos' := { pos with
      sellOccurred := true
      stoplossTriggered := true
      stoplossPrice := stoplossPrice
      soldTargets := newSold }
    let entry : PendingOrder :=
      { orderType := "sell", quantity := pos.quantity, price := stoplossPrice
        buyCount := none, targetName := some "스탑로스", persist := true }
    some { position := pos', ledger := savePendingOrder ledger2 entry
           orderQty := pos.quantity, orderPrice := stoplossPrice, cancelledAll := true }

/-! ## Intent evaluation (`_evaluate_intents`) -/

/-- `_can_buy_new_stock`: fewer instruments with a positive quantity than
`max_holding_stocks`. -/
def canBuyNewStock (cfg : Config) (positions : List Position) : Bool :=
  (positions.countP fun p => 0 < p.quantity) < cfg.maxHoldingStocks

/-- An element of the worker's `order_queue` (an `intent` dict). -/
inductive Intent where
  | ensureStoploss
  | stoploss (price : Nat)
  | ensureSell
  | buy (buyCount : Nat) (targetPrice : Nat)
  deriving Repr, DecidableEq

/-- `_evaluate_intents` for one instrument: always an `ensure_stoploss`
intent; a `stoploss` intent (and nothing further) when the trigger fires on a
held position; an `ensure_sell` intent for a held position; finally a `buy`
intent unless the position is stop-loss-marked or sale-marked, the signal is
absent, or the holder count is full. -/
def evaluateIntents (cfg : Config) (positions : List Position)
    (position : Option Position) (currentPrice : Nat) (candles : List ℚ) :
    List Intent :=
  let base := [Intent.ensureStoploss]
  let withBuy (acc : List Intent) (pos? : Option Position) : List Intent :=
    match checkBuySignal cfg currentPrice candles pos? with
    | none => acc
    | some sig =>
      if sig.buyCount = 1 ∧ canBuyNewStock cfg positions = false then acc
      else acc ++ [Intent.buy sig.buyCount sig.targetPrice]
  match position with
  | none => withBuy base none
  | some pos =>
    if 0 < pos.quantity ∧ shouldTriggerStoploss (some pos) currentPrice then
      base ++ [Intent.stoploss currentPrice]
    else
      let base2 := if 0 < pos.quantity then base ++ [Intent.ensureSell] else base
      if pos.stoplossTriggered then base2
      else if pos.sellOccurred then base2
      else withBuy base2 (some pos)

/-! ## Execution handler (`_on_order_executed`) -/

/-- The sell-fill half of the `"order"` branch of `_on_order_executed`
(`executed_qty > 0`, a sell): look up the first pending sell at the executed
price to classify the fill; an automatic fill appends its target to
`sold_targets`, sets `sell_occurred` and cancels the pending buys; every sell
fill removes the pending sells at that price.  The returned `Bool` is the
`_auto_sell_executed` flag handed to the following balance event. -/
def onSellOrderExecuted (position : Option Position) (ledger : List PendingOrder)
    (executedQty executedPrice : Nat) :
    Option Position × List PendingOrder × Bool :=
  if executedQty = 0 then (position, ledger, false)
  else
    match position with
    | none => (none, removePendingOrderAtPrice ledger "sell" executedPrice, false)
    | some pos =>
      let matched := ledger.find? fun o => o.orderType = "sell" ∧ o.price = executedPrice
      let targetName := (matched.bind PendingOrder.targetName).getD ""
      if targetName ≠ "" then
        if targetName ∉ pos.soldTargets then
          let pos' := { pos with
            soldTargets := pos.soldTargets ++ [targetName], sellOccurred := true }
          let ledger1 := clearPendingOrdersOfType ledger "buy"
          (some pos', removePendingOrderAtPrice ledger1 "sell" executedPrice, true)
        else (some pos, removePendingOrderAtPrice ledger "sell" executedPrice, true)
      else (some pos, removePendingOrderAtPrice ledger "sell" executedPrice, false)

/-- Result of the `"balance"` branch of `_on_order_executed`.  The two
follow-on placement routines (`_schedule_sell_orders_after_buy` after a buy,
`_recalculate_sell_orders_on_quantity_decrease` after a manual sell) depend on
market hours and broker candle state and are recorded as emitted actions;
`cancelSellsSent` records the broker-side sell-cancel of the
additional-buy path. -/
structure BalanceResult where
  position : Option Position
  ledger : List PendingOrder
  cancelSellsSent : Bool
  scheduleSellRefresh : Bool
  recalcSellOrders : Bool
  deriving Repr, DecidableEq

/-- The `"balance"` branch of `_on_order_executed`: adopt the broker quantity
and average price; on an increase cancel and later re-place the sell ladder
and refresh `initial_quantity`; on a decrease mark `sell_occurred` and, for a
manual fill with remaining shares, schedule a ladder recomputation; when the
quantity reaches zero drop the pending sells and zero `stoploss_price`. -/
def onBalanceEvent (position : Option Position) (ledger : List PendingOrder)
    (quantity avgPrice : Nat) (autoSellExecuted : Bool) : BalanceResult :=
  match position with
  | none => { position := none, ledger := ledger, cancelSellsSent := false
              scheduleSellRefresh := false, recalcSellOrders := false }
  | some pos =>
    let oldQuantity := pos.quantity
    let pos1 := { pos with quantity := quantity, avgPrice := avgPrice }
    if oldQuantity < quantity then
      let isAdditionalBuy := 0 < oldQuantity
      let ledger1 := if isAdditionalBuy then clearPendingOrdersOfType ledger "sell" else ledger
      let pos2 := { pos1 with initialQuantity := quantity }
      { position := some pos2, ledger := ledger1, cancelSellsSent := isAdditionalBuy
        scheduleSellRefresh := true, recalcSellOrders := false }
    else
      let pos2 := if quantity < oldQuantity then { pos1 with sellOccurred := true } else pos1
      let recalc := quantity < oldQuantity ∧ autoSellExecuted = false ∧ 0 < quantity
      if quantity = 0 then
        { position := some { pos2 with stoplossPrice := 0 }
          ledger := clearPendingOrdersOfType ledger "sell"
          cancelSellsSent := false, scheduleSellRefresh := false
          recalcSellOrders := false }
      else
        { position := some pos2, ledger := ledger, cancelSellsSent := false
          scheduleSellRefresh := false, recalcSellOrders := recalc }

/-! ## `RateLimiter` (`kiwoom_api.py`) -/

/-- The pruning loop of `wait_if_needed`:
`while calls and calls[0] < now - period: popleft()`. -/
def prune (period now : ℚ) : List ℚ → List ℚ
  | [] => []
  | c :: rest => if c < now - period then prune period now rest else c :: rest

/-- One `wait_if_needed` call with `max_calls = 5`, `period = 1`, as a
function of the deque and the three successive `time.time()` readings: `now`
(on entry), `now2` (after the conditional sleep; the second pruning runs only
in the at-capacity branch), and `now3` (recorded as the admission). -/
def rlStep (calls : List ℚ) (now now2 now3 : ℚ) : List ℚ :=
  let s1 := prune 1 now calls
  let s2 := if 5 ≤ s1.length then prune 1 now2 s1 else s1
  s2 ++ [now3]

/-- The timing facts one `wait_if_needed` call guarantees: clock readings are
monotone across and within calls, and in the at-capacity branch
`time.sleep(calls[0] + period - now + 0.05)` (skipped when not positive) puts
the post-sleep reading past `calls[0] + 1 + 1/20`. -/
def stepOk (calls : List ℚ) (prev now now2 now3 : ℚ) : Prop :=
  prev ≤ now ∧ now ≤ now2 ∧ now2 ≤ now3 ∧
    (5 ≤ (prune 1 now calls).length → (prune 1 now calls).headI + 1 + 1 / 20 ≤ now2)

/-- A sequence of `wait_if_needed` calls, each given by its three clock
readings, is valid when every call's readings satisfy `stepOk` against the
deque state that call observes. -/
def rlValid (calls : List ℚ) (prev : ℚ) : List (ℚ × ℚ × ℚ) → Prop
  | [] => True
  | (now, now2, now3) :: rest =>
    stepOk calls prev now now2 now3 ∧ rlValid (rlStep calls now now2 now3) now3 rest

/-- Membership of an admission time in the sliding window `(t, t + 1]`. -/
def inWindow (t a : ℚ) : Bool := decide (t < a ∧ a ≤ t + 1)

/-! ## Spec-side definition and concrete fixtures -/

/-- The sell ladder exactly as claim C3 words it (four rungs, the first three
with `⌊initialQty·0.30⌋` shares each and the MA rung with the remainder), to
be compared against `calculateSellOrders`. -/
def specLadderC3 (avgPrice initialQty : Nat) (ma : ℚ) : List SellOrder :=
  [{ targetName := "익절1", quantity := initialQty * 3 / 10
     price := ceilToTickQ ((avgPrice : ℚ) * (1 + (295 : ℚ) / 10000)) },
   { targetName := "익절2", quantity := initialQty * 3 / 10
     price := ceilToTickQ ((avgPrice : ℚ) * (1 + (495 : ℚ) / 10000)) },
   { targetName := "익절3", quantity := initialQty * 3 / 10
     price := ceilToTickQ ((avgPrice : ℚ) * (1 + (695 : ℚ) / 10000)) },
   { targetName := "20일선", quantity := initialQty - 3 * (initialQty * 3 / 10)
     price := ceilToTickQ ma }]

/-- Position fixture: one profit rung filled, stop-loss not yet triggered. -/
def posAfterRung1 : Position :=
  { quantity := 87
    avgPrice := 8050
    initialQuantity := 124
    buyCount := 1
    soldTargets := ["익절1"]
    sellOccurred := true
    stoplossTriggered := false
    stoplossPrice := 0 }

/-- Position fixture: stop-loss triggered at 8000 with 87 shares left. -/
def posStoplossed : Position :=
  { quantity := 87
    avgPrice := 8050
    initialQuantity := 124
    buyCount := 1
    soldTargets := ["익절1", "스탑로스"]
    sellOccurred := true
    stoplossTriggered := true
    stoplossPrice := 8000 }

/-- Ledger fixture: the persisted stop-loss sell entry. -/
def stoplossEntry : PendingOrder :=
  { orderType := "sell"
    quantity := 87
    price := 8000
    buyCount := none
    targetName := some "스탑로스"
    persist := true }

/-- Ledger fixture: a staged 2nd-buy entry. -/
def stagedBuyEntry : PendingOrder :=
  { orderType := "buy"
    quantity := 138
    price := 7210
    buyCount := some 2
    targetName := none
    persist := false }

/-- Position fixture: held position with zero average price. -/
def posZeroAvg : Position :=
  { quantity := 1
    avgPrice := 0
    initialQuantity := 1
    buyCount := 1
    soldTargets := ["익절1"]
    sellOccurred := false
    stoplossTriggered := false
    stoplossPrice := 0 }

/-- Position fixture for the balance-to-zero scenario (stop-loss triggered;
both a staged buy and the stop-loss sell pending). -/
def posC5 : Position :=
  { quantity := 87
    avgPrice := 8000
    initialQuantity := 124
    buyCount := 1
    soldTargets := ["익절1", "스탑로스"]
    sellOccurred := true
    stoplossTriggered := true
    stoplossPrice := 8000 }

/-! ## Helper lemmas: tick arithmetic -/

theorem getTickSize_pos (p : Nat) : 0 < getTickSize p := by
  unfold getTickSize; split_ifs <;> omega

theorem ceilToTickQ_pos (x : ℚ) (hx : 1 ≤ x) : 0 < ceilToTickQ x := by
  have h1 : 1 ≤ ratTruncToNat x := by
    unfold ratTruncToNat
    have h2 : (1 : ℤ) ≤ ⌊x⌋ := by
      rw [Int.le_floor]; exact_mod_cast hx
    omega
  unfold ceilToTickQ ceilToTick
  have ht := getTickSize_pos (ratTruncToNat x)
  have hd : 1 ≤ (ratTruncToNat x + getTickSize (ratTruncToNat x) - 1) /
      getTickSize (ratTruncToNat x) := by
    rw [Nat.one_le_div_iff ht]; omega
  exact Nat.mul_pos hd ht

theorem one_le_mul_factor (a c : ℚ) (h : 1 ≤ a) (hc : 1 ≤ c) : 1 ≤ a * c := by
  nlinarith

/-! ## Helper lemmas: sell-ladder accounting -/

theorem appendRung_bound (cq : Nat) (s : List String) (n : String) (q p used : Nat) :
    used ≤ (appendRung cq s n q p used).2 ∧
    ((appendRung cq s n q p used).2 ≤ max used cq) ∧
    ((appendRung cq s n q p used).1.map SellOrder.quantity).sum + used =
      (appendRung cq s n q p used).2 := by
  unfold appendRung
  split_ifs with h
  · simp only [List.map_cons, List.map_nil, List.sum_cons, List.sum_nil]
    omega
  · simp

theorem placeRungs_bound (cq : Nat) (s : List String) :
    ∀ (specs : List (String × Nat × Nat)) (used : Nat),
    used ≤ (placeRungs cq s specs used).2 ∧
    (placeRungs cq s specs used).2 ≤ max used cq ∧
    ((placeRungs cq s specs used).1.map SellOrder.quantity).sum + used =
      (placeRungs cq s specs used).2 := by
  intro specs
  induction specs with
  | nil => intro used; simp [placeRungs]
  | cons hd tl ih =>
    intro used
    obtain ⟨n, q, p⟩ := hd
    have h1 := appendRung_bound cq s n q p used
    have h2 := ih (appendRung cq s n q p used).2
    simp only [placeRungs, List.map_append, List.sum_append]
    omega

theorem appendOrder_bound (cq : Nat) (s : List String) (n : String) (q p used : Nat) :
    used ≤ (appendOrderIfNeeded cq s n q p used).2 ∧
    ((appendOrderIfNeeded cq s n q p used).2 ≤ max used cq) ∧
    ((appendOrderIfNeeded cq s n q p used).1.map SellOrder.quantity).sum + used =
      (appendOrderIfNeeded cq s n q p used).2 := by
  unfold appendOrderIfNeeded
  split_ifs with h
  · simp
  · simp only [List.map_cons, List.map_nil, List.sum_cons, List.sum_nil]
    omega

theorem planOrders_bound (cq : Nat) (s : List String) :
    ∀ (specs : List (String × Nat × Nat)) (used : Nat),
    used ≤ (planOrders cq s specs used).2 ∧
    (planOrders cq s specs used).2 ≤ max used cq ∧
    ((planOrders cq s specs used).1.map SellOrder.quantity).sum + used =
      (planOrders cq s specs used).2 := by
  intro specs
  induction specs with
  | nil => intro used; simp [planOrders]
  | cons hd tl ih =>
    intro used
    obtain ⟨n, q, p⟩ := hd
    have h1 := appendOrder_bound cq s n q p used
    have h2 := ih (appendOrderIfNeeded cq s n q p used).2
    simp only [planOrders, List.map_append, List.sum_append]
    omega

theorem appendRung_fires (cq : Nat) (s : List String) (n : String) (q p used : Nat)
    (h1 : n ∉ s) (h2 : used + q ≤ cq) (h3 : p ≠ 0) :
    appendRung cq s n q p used =
      ([{ targetName := n, quantity := q, price := p }], used + q) := by
  unfold appendRung
  rw [if_pos ⟨h1, h2, h3⟩]
  have hm : min q (cq - used) = q := by omega
  rw [hm]

/-! ## Helper lemmas: stop-loss -/

theorem shouldTrigger_iff (pos : Position) (cp : Nat) :
    shouldTriggerStoploss (some pos) cp = true ↔
      (pos.stoplossTriggered = false ∧ pos.soldTargets ≠ [] ∧
        "스탑로스" ∉ pos.soldTargets ∧ 0 < pos.avgPrice ∧ cp ≤ pos.avgPrice) := by
  simp only [shouldTriggerStoploss]
  split_ifs with h1 h2 h3 h4
  · simp [h1]
  · simp_all [List.isEmpty_iff]
  · simp_all
  · simp_all
  · simp only [decide_eq_true_eq]
    constructor
    · intro h
      refine ⟨by simpa using h1, by simpa [List.isEmpty_iff] using h2, h3, by omega, h⟩
    · intro h; exact h.2.2.2.2

theorem clear_buy_sell (ledger : List PendingOrder) :
    clearPendingOrdersOfType (clearPendingOrdersOfType ledger "buy") "sell" =
      ledger.filter fun o => o.orderType ≠ "buy" ∧ o.orderType ≠ "sell" := by
  unfold clearPendingOrdersOfType
  rw [List.filter_filter]
  apply List.filter_congr
  intro o _
  by_cases h1 : o.orderType = "buy" <;> by_cases h2 : o.orderType = "sell" <;> simp [h1, h2]

theorem savePendingOrder_fresh (ledger : List PendingOrder) (o : PendingOrder)
    (h : ∀ e ∈ ledger, e.orderType ≠ o.orderType) :
    savePendingOrder ledger o = ledger ++ [o] := by
  unfold savePendingOrder
  have hno : ¬ ((ledger.any fun e =>
      e.orderType = o.orderType ∧ e.price = o.price ∧ e.buyCount = o.buyCount) = true) := by
    intro hc
    obtain ⟨e, he, hp⟩ := List.any_eq_true.mp hc
    simp only [decide_eq_true_eq] at hp
    exact h e he hp.1
  rw [if_neg hno]

theorem executeStoploss_spec (pos : Position) (cp : Nat) (ledger : List PendingOrder)
    (r : StoplossResult) (h : executeStoploss pos cp ledger = some r) :
    r.orderQty = pos.quantity ∧
    r.orderPrice = (if floorToTick cp = 0 then max 1 (pos.avgPrice - getTickSize cp)
      else floorToTick cp) ∧
    r.position = { pos with
      sellOccurred := true
      stoplossTriggered := true
      stoplossPrice := r.orderPrice
      soldTargets := if "스탑로스" ∈ pos.soldTargets then pos.soldTargets
        else pos.soldTargets ++ ["스탑로스"] } ∧
    r.ledger = (ledger.filter fun o => o.orderType ≠ "buy" ∧ o.orderType ≠ "sell") ++
      [{ orderType := "sell"
         quantity := pos.quantity
         price := r.orderPrice
         buyCount := none
         targetName := some "스탑로스"
         persist := true }] ∧
    r.cancelledAll = true := by
  unfold executeStoploss at h
  by_cases hq : pos.quantity = 0
  · rw [if_pos hq] at h
    exact absurd h (by simp)
  · rw [if_neg hq] at h
    simp only [Option.some.injEq] at h
    subst h
    refine ⟨rfl, rfl, rfl, ?_, rfl⟩
    show savePendingOrder
      (clearPendingOrdersOfType (clearPendingOrdersOfType ledger "buy") "sell") _ = _
    rw [clear_buy_sell]
    rw [savePendingOrder_fresh]
    intro e he
    have := List.of_mem_filter he
    simp only [decide_eq_true_eq] at this
    exact this.2

/-! ## Helper lemmas: buy signal and intent evaluation -/

theorem checkBuySignal_spec (cfg : Config) (cp : Nat) (candles : List ℚ)
    (position : Option Position) (sig : BuySignal)
    (h : checkBuySignal cfg cp candles position = some sig) :
    sig.buyCount = 1 ∧
    (position = none ∨ ∃ p, position = some p ∧ p.quantity = 0) ∧
    ∃ ma, getMaFromCandles candles cfg.envelopePeriod = some ma ∧
      sig.targetPrice = floorToTickQ (ma * (1 - (cfg.envelopeBuyPercent : ℚ) / 100)) +
        getTickSize (floorToTickQ (ma * (1 - (cfg.envelopeBuyPercent : ℚ) / 100))) := by
  unfold checkBuySignal at h
  rcases hma : getMaFromCandles candles cfg.envelopePeriod with _ | ma <;> rw [hma] at h
  · simp at h
  · cases position with
    | none =>
      simp only [] at h
      split_ifs at h with h1 h2
      all_goals try exact Option.noConfusion h
      all_goals
        have hs := (Option.some.injEq _ _).mp h
        subst hs
        exact ⟨rfl, Or.inl rfl, ma, rfl, rfl⟩
    | some p =>
      simp only [] at h
      split_ifs at h with h1 h2
      all_goals try exact Option.noConfusion h
      all_goals
        have hs := (Option.some.injEq _ _).mp h
        subst hs
        refine ⟨rfl, Or.inr ⟨p, rfl, ?_⟩, ma, rfl, rfl⟩
        simp_all

theorem executeBuy_spec (cfg : Config) (position : Option Position) (sig : BuySignal)
    (cp oq op : Nat) (hp : sig.targetPrice ≠ 0)
    (h : executeBuy cfg position sig cp = some (oq, op)) :
    op = sig.targetPrice ∧ oq = cfg.buyAmountPerStock / sig.targetPrice := by
  simp only [executeBuy] at h
  rw [if_neg hp] at h
  split_ifs at h
  all_goals try exact Option.noConfusion h
  all_goals
    have hs := (Option.some.injEq _ _).mp h
    exact ⟨(Prod.ext_iff.mp hs).2.symm, (Prod.ext_iff.mp hs).1.symm⟩

theorem stoplossIntent_iff (cfg : Config) (positions : List Position) (pos : Position)
    (cp : Nat) (candles : List ℚ) :
    Intent.stoploss cp ∈ evaluateIntents cfg positions (some pos) cp candles ↔
      (0 < pos.quantity ∧ pos.stoplossTriggered = false ∧ pos.soldTargets ≠ [] ∧
        "스탑로스" ∉ pos.soldTargets ∧ 0 < pos.avgPrice ∧ cp ≤ pos.avgPrice) := by
  constructor
  · intro hmem
    by_cases hb : 0 < pos.quantity ∧ shouldTriggerStoploss (some pos) cp = true
    · exact ⟨hb.1, (shouldTrigger_iff pos cp).mp hb.2⟩
    · exfalso
      rcases hsig : checkBuySignal cfg cp candles (some pos) with _ | sig <;>
        (simp only [evaluateIntents, hsig] at hmem
         rw [if_neg hb] at hmem
         split_ifs at hmem <;> simp at hmem)
  · rintro ⟨h1, h2, h3, h4, h5, h6⟩
    have hb : 0 < pos.quantity ∧ shouldTriggerStoploss (some pos) cp = true :=
      ⟨h1, (shouldTrigger_iff pos cp).mpr ⟨h2, h3, h4, h5, h6⟩⟩
    simp only [evaluateIntents]
    rw [if_pos hb]
    simp

/-! ## Helper lemmas: rate limiter -/

theorem prune_decomp (p now : ℚ) :
    ∀ l : List ℚ, ∃ d, l = d ++ prune p now l ∧ ∀ a ∈ d, a < now - p := by
  intro l
  induction l with
  | nil => exact ⟨[], rfl, by simp⟩
  | cons c rest ih =>
    by_cases h : c < now - p
    · obtain ⟨d, hd, hall⟩ := ih
      refine ⟨c :: d, ?_, ?_⟩
      · simp only [prune, if_pos h, List.cons_append]
        rw [← hd]
      · intro a ha
        rcases List.mem_cons.mp ha with h1 | h2
        · simpa [h1] using h
        · exact hall a h2
    · exact ⟨[], by simp [prune, h], by simp⟩

theorem prune_length_le (p now : ℚ) : ∀ l : List ℚ, (prune p now l).length ≤ l.length := by
  intro l
  induction l with
  | nil => simp [prune]
  | cons c rest ih =>
    by_cases h : c < now - p
    · simp only [prune, if_pos h]
      exact Nat.le_trans ih (by simp)
    · simp [prune, h]

theorem rl_aux :
    ∀ (ts : List (ℚ × ℚ × ℚ)) (calls hist : List ℚ) (prev : ℚ),
      rlValid calls prev ts →
      (∃ d, hist = d ++ calls ∧ ∀ a ∈ d, a < prev - 1) →
      calls.length ≤ 5 →
      (∀ t, hist.countP (inWindow t) ≤ 5) →
      ∀ t, ((hist ++ ts.map fun s => s.2.2).countP (inWindow t)) ≤ 5 := by
  intro ts
  induction ts with
  | nil =>
    intro calls hist prev _ _ _ hw t
    simpa using hw t
  | cons step rest ih =>
    obtain ⟨now, now2, now3⟩ := step
    intro calls hist prev hv hd hlen hw t
    obtain ⟨⟨hprev, hnow2, hnow3, hsleep⟩, hvrest⟩ := hv
    obtain ⟨d, hdeq, hdlt⟩ := hd
    obtain ⟨d1, hd1eq, hd1lt⟩ := prune_decomp 1 now calls
    have hmain : ∃ d2 s2, prune 1 now calls = d2 ++ s2 ∧ (∀ a ∈ d2, a < now2 - 1) ∧
        s2.length ≤ 4 ∧ rlStep calls now now2 now3 = s2 ++ [now3] := by
      by_cases hb : 5 ≤ (prune 1 now calls).length
      · obtain ⟨d2, hd2eq, hd2lt⟩ := prune_decomp 1 now2 (prune 1 now calls)
        refine ⟨d2, prune 1 now2 (prune 1 now calls), hd2eq, hd2lt, ?_, ?_⟩
        · have hs1len : (prune 1 now calls).length ≤ 5 :=
            Nat.le_trans (prune_length_le 1 now calls) hlen
          obtain ⟨x, xs, hxxs⟩ : ∃ x xs, prune 1 now calls = x :: xs := by
            cases hx : prune 1 now calls with
            | nil => rw [hx] at hb; simp at hb
            | cons a l => exact ⟨a, l, rfl⟩
          have hhead := hsleep hb
          rw [hxxs] at hhead
          simp only [List.headI_cons] at hhead
          have hxlt : x < now2 - 1 := by linarith
          have hred : prune 1 now2 (prune 1 now calls) = prune 1 now2 xs := by
            rw [hxxs]; simp [prune, hxlt]
          rw [hred]
          have h1 := prune_length_le 1 now2 xs
          have h2 : xs.length + 1 ≤ 5 := by
            have := hxxs ▸ hs1len; simpa using this
          omega
        · simp [rlStep, hb]
      · refine ⟨[], prune 1 now calls, by simp, by simp, by omega, ?_⟩
        simp [rlStep, hb]
    obtain ⟨d2, s2, hd2eq, hd2lt, hs2len, hstep⟩ := hmain
    have hdecomp' : hist ++ [now3] = (d ++ d1 ++ d2) ++ (s2 ++ [now3]) := by
      rw [hdeq, hd1eq, hd2eq]; simp
    have hwindow' : ∀ t', ((hist ++ [now3]).countP (inWindow t')) ≤ 5 := by
      intro t'
      rw [List.countP_append]
      by_cases hwin : inWindow t' now3 = true
      · have hle : now3 - 1 ≤ t' := by
          have := of_decide_eq_true hwin
          linarith [this.2]
        have hz : ((d ++ d1 ++ d2).countP (inWindow t')) = 0 := by
          rw [List.countP_eq_zero]
          intro a ha
          have halt : a < now3 - 1 := by
            rcases List.mem_append.mp ha with h1 | h2
            · rcases List.mem_append.mp h1 with h3 | h4
              · have := hdlt a h3; linarith
              · have := hd1lt a h4; linarith
            · have := hd2lt a h2; linarith
          simp only [inWindow, decide_eq_true_eq]
          rintro ⟨hlt, -⟩
          linarith
        have hsplit : hist = (d ++ d1 ++ d2) ++ s2 := by
          rw [hdeq, hd1eq, hd2eq]; simp
        have hcnt : hist.countP (inWindow t') ≤ 4 := by
          rw [hsplit, List.countP_append, hz]
          have := List.countP_le_length (l := s2) (p := inWindow t')
          omega
        have hone : ([now3].countP (inWindow t')) ≤ 1 := List.countP_le_length _
        omega
      · have hzero : ([now3].countP (inWindow t')) = 0 := by
          simp [List.countP, hwin, List.countP.go]
        rw [hzero]
        have := hw t'
        omega
    have hlen' : (s2 ++ [now3]).length ≤ 5 := by simp; omega
    have hd' : ∃ d', hist ++ [now3] = d' ++ (s2 ++ [now3]) ∧ ∀ a ∈ d', a < now3 - 1 := by
      refine ⟨d ++ d1 ++ d2, hdecomp', ?_⟩
      intro a ha
      rcases List.mem_append.mp ha with h1 | h2
      · rcases List.mem_append.mp h1 with h3 | h4
        · have := hdlt a h3; linarith
        · have := hd1lt a h4; linarith
      · have := hd2lt a h2; linarith
    have hrec := ih (s2 ++ [now3]) (hist ++ [now3]) now3 (hstep ▸ hvrest) hd' hlen' hwindow'
    have hassoc : hist ++ ((now, now2, now3) :: rest).map (fun s => s.2.2) =
        (hist ++ [now3]) ++ rest.map (fun s => s.2.2) := by simp
    rw [hassoc]
    exact hrec t

/-! ## Helper lemmas: concrete evaluations for the S1/S2 scenarios -/

theorem ma20_of_flat10000 :
    getMaFromCandles (List.replicate 20 (10000 : ℚ)) 20 = some 10000 := by
  norm_num [getMaFromCandles, List.take_replicate, List.sum_replicate, nsmul_eq_mul]

theorem buySignal_s1 :
    checkBuySignal defaultConfig 8100 (List.replicate 20 (10000 : ℚ)) none =
      some { buyCount := 1, targetPrice := 8010 } := by
  simp only [checkBuySignal, defaultConfig, ma20_of_flat10000]
  norm_num
  decide

theorem stagedOrders_s1 :
    placeAdditionalBuyOrders defaultConfig 8010 = [(2, 138, 7210), (3, 154, 6490)] := by
  have hf1 : floorToTickQ (7209 : ℚ) = 7200 := by decide
  have ht1 : getTickSize 7200 = 10 := by decide
  simp only [placeAdditionalBuyOrders, defaultConfig]
  norm_num [hf1, ht1]
  have hf2 : floorToTickQ (6489 : ℚ) = 6480 := by decide
  norm_num [hf2]
  decide

theorem evalIntents_s1 :
    evaluateIntents defaultConfig [] none 8100 (List.replicate 20 (10000 : ℚ)) =
      [Intent.ensureStoploss, Intent.buy 1 8010] := by
  simp only [evaluateIntents, buySignal_s1]
  decide

theorem ceil10295_8050 : ceilToTickQ ((331499 : ℚ) / 40) = 8290 := by
  norm_num [ceilToTickQ, ratTruncToNat]
  decide

theorem ceil10495_8050 : ceilToTickQ ((337939 : ℚ) / 40) = 8450 := by
  norm_num [ceilToTickQ, ratTruncToNat]
  decide

theorem ceil10695_8050 : ceilToTickQ ((344379 : ℚ) / 40) = 8610 := by
  norm_num [ceilToTickQ, ratTruncToNat]
  decide

theorem sellLadder_s2 :
    calculateSellOrders 8050 124 124 (some 10000) [] =
      [{ targetName := "익절1", quantity := 37, price := 8290 },
       { targetName := "익절2", quantity := 37, price := 8450 },
       { targetName := "익절3", quantity := 37, price := 8610 },
       { targetName := "20일선", quantity := 13, price := 10000 }] := by
  simp only [calculateSellOrders]
  norm_num [ceil10295_8050, ceil10495_8050, ceil10695_8050]
  decide

theorem calculateSellOrders_fresh (a q : Nat) (m : ℚ)
    (ha : 1 ≤ a) (hq : 4 ≤ q) (hm : 1 ≤ m) :
    calculateSellOrders a q q (some m) [] = specLadderC3 a q m := by
  have hq0 : ¬ (q * 3 / 10 = 0) := by omega
  have h3q : 3 * (q * 3 / 10) < q := by omega
  have haq : (1 : ℚ) ≤ (a : ℚ) := by exact_mod_cast ha
  have hp1 : ceilToTickQ ((a : ℚ) * (1 + (295 : ℚ) / 10000)) ≠ 0 :=
    Nat.pos_iff_ne_zero.mp (ceilToTickQ_pos _ (one_le_mul_factor _ _ haq (by norm_num)))
  have hp2 : ceilToTickQ ((a : ℚ) * (1 + (495 : ℚ) / 10000)) ≠ 0 :=
    Nat.pos_iff_ne_zero.mp (ceilToTickQ_pos _ (one_le_mul_factor _ _ haq (by norm_num)))
  have hp3 : ceilToTickQ ((a : ℚ) * (1 + (695 : ℚ) / 10000)) ≠ 0 :=
    Nat.pos_iff_ne_zero.mp (ceilToTickQ_pos _ (one_le_mul_factor _ _ haq (by norm_num)))
  have hpm : ceilToTickQ m ≠ 0 := Nat.pos_iff_ne_zero.mp (ceilToTickQ_pos _ hm)
  have hm0 : m ≠ 0 := by intro h; rw [h] at hm; norm_num at hm
  have e1 := appendRung_fires q [] "익절1" (q * 3 / 10)
    (ceilToTickQ ((a : ℚ) * (1 + (295 : ℚ) / 10000))) 0 (by simp) (by omega) hp1
  have e2 := appendRung_fires q [] "익절2" (q * 3 / 10)
    (ceilToTickQ ((a : ℚ) * (1 + (495 : ℚ) / 10000))) (0 + q * 3 / 10) (by simp) (by omega) hp2
  have e3 := appendRung_fires q [] "익절3" (q * 3 / 10)
    (ceilToTickQ ((a : ℚ) * (1 + (695 : ℚ) / 10000))) (0 + q * 3 / 10 + q * 3 / 10)
    (by simp) (by omega) hp3
  simp only [calculateSellOrders, specLadderC3, if_neg hq0, placeRungs, e1, e2, e3]
  simp only [List.cons_append, List.nil_append, List.append_nil]
  rw [if_pos]
  · have hsub : q - (0 + q * 3 / 10 + q * 3 / 10 + q * 3 / 10) = q - 3 * (q * 3 / 10) := by
      omega
    rw [hsub]
  · refine ⟨hm0, by simp, by omega, hpm⟩

/-! ## Claim theorems -/

/-- Claim C1, counterexample: in scenario S1 the engine computes the first
limit buy at 8010, not 8050 as claimed — the tick at the floored support 8000
is 10 (band `< 10000`), not 50. -/
theorem C1_counterexample :
    (checkBuySignal defaultConfig 8100 (List.replicate 20 (10000 : ℚ)) none).map
      (fun s => s.targetPrice) = some 8010 ∧ (8010 : Nat) ≠ 8050 := by
  rw [buySignal_s1]
  decide

/-- Claim C1 (amended): in scenario S1 the engine signals the first buy at
limit 8010 = floorToTick(8000) + tick(8000) with quantity 124 = 1000000/8010,
and pre-places stage 2 at 7210 = floorToTick(8010·0.9) + tick for 138 shares
and stage 3 at 6490 = floorToTick(7210·0.9) + tick for 154 shares, each stage
price being the previous stage's price times (1 − addDrop/100) floored to the
tick ladder plus one tick (the tick of the floored price) and each quantity
being buyAmountPerStock floor-divided by that stage's price. -/
theorem C1_firstBuyLadder :
    checkBuySignal defaultConfig 8100 (List.replicate 20 (10000 : ℚ)) none =
      some { buyCount := 1, targetPrice := 8010 } ∧
    executeBuy defaultConfig none { buyCount := 1, targetPrice := 8010 } 8100 =
      some (124, 8010) ∧
    (124 : Nat) = 1000000 / 8010 ∧
    placeAdditionalBuyOrders defaultConfig 8010 = [(2, 138, 7210), (3, 154, 6490)] ∧
    (7210 : Nat) = floorToTickQ ((8010 : ℚ) * (1 - 10 / 100)) +
      getTickSize (floorToTickQ ((8010 : ℚ) * (1 - 10 / 100))) ∧
    (6490 : Nat) = floorToTickQ ((7210 : ℚ) * (1 - 10 / 100)) +
      getTickSize (floorToTickQ ((7210 : ℚ) * (1 - 10 / 100))) ∧
    (138 : Nat) = 1000000 / 7210 ∧ (154 : Nat) = 1000000 / 6490 := by
  have e2 : floorToTickQ ((8010 : ℚ) * (1 - 10 / 100)) = 7200 := by
    norm_num [floorToTickQ, ratTruncToNat]
    decide
  have e3 : floorToTickQ ((7210 : ℚ) * (1 - 10 / 100)) = 6480 := by
    norm_num [floorToTickQ, ratTruncToNat]
    decide
  refine ⟨buySignal_s1, by decide, by decide, stagedOrders_s1, ?_, ?_, by decide, by decide⟩
  · rw [e2]; decide
  · rw [e3]; decide

/-- Claim C2, counterexample: a held position with `avgPrice = 0` satisfies
every condition the claim lists (quantity > 0, soldTargets non-empty, no
스탑로스, flag unset, lastPrice ≤ avgPrice) yet no stop-loss intent is
produced — the source additionally requires `avg_price > 0`; and when the
floored price is 0 the execution falls back to `max(1, avgPrice − tick)`
(8049 here) instead of `floorToTick(lastPrice) = 0`. -/
theorem C2_counterexample :
    (Intent.stoploss 0 ∉ evaluateIntents defaultConfig [posZeroAvg] (some posZeroAvg) 0 []) ∧
    (0 < posZeroAvg.quantity ∧ posZeroAvg.soldTargets ≠ [] ∧
      "스탑로스" ∉ posZeroAvg.soldTargets ∧ posZeroAvg.stoplossTriggered = false ∧
      (0 : Nat) ≤ posZeroAvg.avgPrice) ∧
    (executeStoploss posAfterRung1 0 []).map StoplossResult.orderPrice = some 8049 ∧
    floorToTick 0 = 0 ∧ (8049 : Nat) ≠ 0 := by
  decide

/-- Claim C2 (amended): a stop-loss intent is produced exactly when the
position has quantity > 0, soldTargets is non-empty, 스탑로스 is not among
them, stoplossTriggered is false, avgPrice is positive, and
lastPrice ≤ avgPrice; its execution cancels all other outstanding orders of
the instrument (broker-side plus the pending buys and sells of the ledger),
places a single limit sell of the whole quantity at floorToTick(lastPrice)
(falling back to max(1, avgPrice − tick) when the floored price is zero),
sets stoplossTriggered and stoplossPrice, appends 스탑로스 to soldTargets,
and records the order in the ledger with persist = true. -/
theorem C2_stoplossIntent :
    (∀ (cfg : Config) (positions : List Position) (pos : Position) (cp : Nat)
        (candles : List ℚ),
      Intent.stoploss cp ∈ evaluateIntents cfg positions (some pos) cp candles ↔
        (0 < pos.quantity ∧ pos.stoplossTriggered = false ∧ pos.soldTargets ≠ [] ∧
          "스탑로스" ∉ pos.soldTargets ∧ 0 < pos.avgPrice ∧ cp ≤ pos.avgPrice)) ∧
    (∀ (pos : Position) (cp : Nat) (ledger : List PendingOrder) (r : StoplossResult),
      executeStoploss pos cp ledger = some r →
        r.orderQty = pos.quantity ∧
        r.orderPrice = (if floorToTick cp = 0 then max 1 (pos.avgPrice - getTickSize cp)
          else floorToTick cp) ∧
        r.position = { pos with
          sellOccurred := true
          stoplossTriggered := true
          stoplossPrice := r.orderPrice
          soldTargets := if "스탑로스" ∈ pos.soldTargets then pos.soldTargets
            else pos.soldTargets ++ ["스탑로스"] } ∧
        r.ledger = (ledger.filter fun o => o.orderType ≠ "buy" ∧ o.orderType ≠ "sell") ++
          [{ orderType := "sell"
             quantity := pos.quantity
             price := r.orderPrice
             buyCount := none
             targetName := some "스탑로스"
             persist := true }] ∧
        r.cancelledAll = true) :=
  ⟨stoplossIntent_iff, executeStoploss_spec⟩

/-- Witness for C2: at the fixture after one filled rung, the intent fires at
price 8000 ≤ avgPrice 8050, and the execution sends the full 87 shares. -/
theorem C2_witness :
    Intent.stoploss 8000 ∈ evaluateIntents defaultConfig [posAfterRung1]
      (some posAfterRung1) 8000 [] ∧
    (executeStoploss posAfterRung1 8000 []).map StoplossResult.orderQty =
      some posAfterRung1.quantity := by
  refine ⟨(C2_stoplossIntent.1 defaultConfig [posAfterRung1] posAfterRung1 8000 []).mpr
    (by decide), ?_⟩
  have h : executeStoploss posAfterRung1 8000 [] =
      some { position := posStoplossed, ledger := [stoplossEntry], orderQty := 87,
             orderPrice := 8000, cancelledAll := true } := by decide
  have h2 := C2_stoplossIntent.2 posAfterRung1 8000 [] _ h
  rw [h]
  exact congrArg some h2.1

/-- Claim C3, counterexample: for a fresh position of a single share
(avgPrice 8050, initial = current = 1, MA 10000) the computed ladder is the
single rung 익절1 for 1 share (the per-rung quantity is forced to at least 1
and nothing is left for the later rungs), not the claimed four rungs with
⌊q·0.30⌋ = 0 shares each and the remainder on the MA rung. -/
theorem C3_counterexample :
    calculateSellOrders 8050 1 1 (some 10000) [] ≠ specLadderC3 8050 1 10000 := by
  simp only [calculateSellOrders, specLadderC3]
  norm_num [ceil10295_8050, ceil10495_8050, ceil10695_8050]
  decide

/-- Claim C3 (amended): for every position with avgPrice ≥ 1, initial
quantity q ≥ 4 (so that ⌊q·0.30⌋ ≥ 1), current quantity q, empty soldTargets
and MA ≥ 1, the ladder is exactly 익절1/익절2/익절3 at
ceilToTick(avg·1.0295/1.0495/1.0695) with ⌊q·0.30⌋ shares each plus the
20일선 rung at ceilToTick(MA) with the remaining q − 3⌊q·0.30⌋ shares; in
particular S2 (q = 124, avg = 8050, MA = 10000) yields
37@8290, 37@8450, 37@8610 and 13@10000. -/
theorem C3_sellLadder :
    (∀ (a q : Nat) (m : ℚ), 1 ≤ a → 4 ≤ q → 1 ≤ m →
      calculateSellOrders a q q (some m) [] = specLadderC3 a q m) ∧
    calculateSellOrders 8050 124 124 (some 10000) [] =
      [{ targetName := "익절1", quantity := 37, price := 8290 },
       { targetName := "익절2", quantity := 37, price := 8450 },
       { targetName := "익절3", quantity := 37, price := 8610 },
       { targetName := "20일선", quantity := 13, price := 10000 }] :=
  ⟨calculateSellOrders_fresh, sellLadder_s2⟩

/-- Witness for C3: the general ladder theorem applied at the S2 inputs. -/
theorem C3_witness :
    calculateSellOrders 8050 124 124 (some 10000) [] = specLadderC3 8050 124 10000 :=
  C3_sellLadder.1 8050 124 10000 (by norm_num) (by norm_num) (by norm_num)

/-- Claim C4 (confirmed): a first-entry buy intent is generated only when the
position is absent or empty with both blocking flags clear and the count of
held instruments below maxHoldingStocks; its limit price is
floorToTick(MA·(1 − buyPct/100)) plus one tick (the tick at the floored
price) and the order sent for it carries quantity
buyAmountPerStock / limit price. -/
theorem C4_firstBuyIntent (cfg : Config) (positions : List Position)
    (position : Option Position) (cp : Nat) (candles : List ℚ) (bc price : Nat)
    (hmem : Intent.buy bc price ∈ evaluateIntents cfg positions position cp candles) :
    bc = 1 ∧
    (position = none ∨ ∃ pos, position = some pos ∧ pos.quantity = 0 ∧
      pos.sellOccurred = false ∧ pos.stoplossTriggered = false) ∧
    canBuyNewStock cfg positions = true ∧
    (∃ ma, getMaFromCandles candles cfg.envelopePeriod = some ma ∧
      price = floorToTickQ (ma * (1 - (cfg.envelopeBuyPercent : ℚ) / 100)) +
        getTickSize (floorToTickQ (ma * (1 - (cfg.envelopeBuyPercent : ℚ) / 100)))) ∧
    (∀ oq op, executeBuy cfg position { buyCount := bc, targetPrice := price } cp =
      some (oq, op) → op = price ∧ oq = cfg.buyAmountPerStock / price) := by
  have hkey : ∃ sig, checkBuySignal cfg cp candles position = some sig ∧
      bc = sig.buyCount ∧ price = sig.targetPrice ∧
      canBuyNewStock cfg positions = true ∧
      (position = none ∨ ∃ pos, position = some pos ∧
        pos.sellOccurred = false ∧ pos.stoplossTriggered = false) := by
    cases position with
    | none =>
      rcases hsig : checkBuySignal cfg cp candles none with _ | sig <;>
        simp only [evaluateIntents, hsig] at hmem
      · simp at hmem
      · by_cases hguard : (sig.buyCount = 1 ∧ canBuyNewStock cfg positions = false)
        · rw [if_pos hguard] at hmem; simp at hmem
        · rw [if_neg hguard] at hmem
          simp at hmem
          obtain ⟨hbc, hpr⟩ := hmem
          refine ⟨sig, rfl, hbc, hpr, ?_, Or.inl rfl⟩
          by_contra hcbf
          have hs := checkBuySignal_spec cfg cp candles none sig hsig
          exact hguard ⟨hs.1, Bool.not_eq_true _ ▸ hcbf⟩
    | some pos =>
      rcases hsig : checkBuySignal cfg cp candles (some pos) with _ | sig <;>
        simp only [evaluateIntents, hsig] at hmem
      · split_ifs at hmem <;> simp at hmem
      · by_cases hstop : (0 < pos.quantity ∧ shouldTriggerStoploss (some pos) cp = true)
        · rw [if_pos hstop] at hmem; simp at hmem
        · rw [if_neg hstop] at hmem
          by_cases htrig : pos.stoplossTriggered = true
          · rw [if_pos htrig] at hmem
            split_ifs at hmem <;> simp at hmem
          · rw [if_neg htrig] at hmem
            by_cases hsell : pos.sellOccurred = true
            · rw [if_pos hsell] at hmem
              split_ifs at hmem <;> simp at hmem
            · rw [if_neg hsell] at hmem
              by_cases hguard : (sig.buyCount = 1 ∧ canBuyNewStock cfg positions = false)
              · rw [if_pos hguard] at hmem
                split_ifs at hmem <;> simp at hmem
              · rw [if_neg hguard] at hmem
                have hmem2 : bc = sig.buyCount ∧ price = sig.targetPrice := by
                  split_ifs at hmem <;> simpa using hmem
                refine ⟨sig, rfl, hmem2.1, hmem2.2, ?_,
                  Or.inr ⟨pos, rfl, Bool.not_eq_true _ ▸ hsell,
                    Bool.not_eq_true _ ▸ htrig⟩⟩
                by_contra hcbf
                have hs := checkBuySignal_spec cfg cp candles (some pos) sig hsig
                exact hguard ⟨hs.1, Bool.not_eq_true _ ▸ hcbf⟩
  obtain ⟨sig, hsig, hbc, hpr, hcb, hposfact⟩ := hkey
  have hs := checkBuySignal_spec cfg cp candles position sig hsig
  obtain ⟨hs1, hs2, ma, hma, htp⟩ := hs
  have hpos : position = none ∨ ∃ pos, position = some pos ∧ pos.quantity = 0 ∧
      pos.sellOccurred = false ∧ pos.stoplossTriggered = false := by
    rcases hs2 with h | ⟨p, hp, hq⟩
    · exact Or.inl h
    · rcases hposfact with h2 | ⟨p2, hp2, hso, hst⟩
      · exact Or.inl h2
      · rw [hp] at hp2
        have hpp : p = p2 := by injection hp2
        subst hpp
        exact Or.inr ⟨p, hp, hq, hso, hst⟩
  have hpne : price ≠ 0 := by
    rw [hpr, htp]
    have := getTickSize_pos (floorToTickQ (ma * (1 - (cfg.envelopeBuyPercent : ℚ) / 100)))
    omega
  refine ⟨hbc.trans hs1, hpos, hcb, ⟨ma, hma, hpr.trans htp⟩, ?_⟩
  intro oq op hexec
  have := executeBuy_spec cfg position _ cp oq op (by simpa using hpne) hexec
  simpa using this

/-- Witness for C4: in scenario S1 (no position, no holdings, price 8100,
flat-10000 candles) the buy intent for 8010 is generated and the holder
count is below the maximum. -/
theorem C4_witness :
    Intent.buy 1 8010 ∈ evaluateIntents defaultConfig [] none 8100
      (List.replicate 20 (10000 : ℚ)) ∧
    canBuyNewStock defaultConfig [] = true := by
  have hmem : Intent.buy 1 8010 ∈ evaluateIntents defaultConfig [] none 8100
      (List.replicate 20 (10000 : ℚ)) := by
    rw [evalIntents_s1]
    simp
  exact ⟨hmem, (C4_firstBuyIntent defaultConfig [] none 8100
    (List.replicate 20 (10000 : ℚ)) 1 8010 hmem).2.2.1⟩

/-- Claim C5, counterexample: a balance event with quantity 0 on a
stop-loss-marked position leaves soldTargets and stoplossTriggered untouched
and keeps the pending buy entry — only the pending sells and stoplossPrice
are cleared, contrary to the claimed full reset. -/
theorem C5_counterexample :
    ((onBalanceEvent (some posC5) [stagedBuyEntry, stoplossEntry] 0 0 false).position.map
      Position.soldTargets = some ["익절1", "스탑로스"]) ∧
    ((onBalanceEvent (some posC5) [stagedBuyEntry, stoplossEntry] 0 0 false).position.map
      Position.stoplossTriggered = some true) ∧
    ((onBalanceEvent (some posC5) [stagedBuyEntry, stoplossEntry] 0 0 false).ledger =
      [stagedBuyEntry]) := by
  decide

/-- Claim C5 (amended): when a balance event reports quantity 0, the
position's stoplossPrice is reset to 0 and its pending sell orders are
cleared from the ledger; soldTargets and stoplossTriggered are left
unchanged, pending buy orders are kept, and sellOccurred ends up true
whenever the previous quantity was positive (and otherwise keeps its old
value). -/
theorem C5_closeKeepsFlags (pos : Position) (ledger : List PendingOrder)
    (avgPrice : Nat) (autoSellExecuted : Bool) :
    onBalanceEvent (some pos) ledger 0 avgPrice autoSellExecuted =
      { position := some { pos with
          quantity := 0
          avgPrice := avgPrice
          sellOccurred := if 0 < pos.quantity then true else pos.sellOccurred
          stoplossPrice := 0 }
        ledger := ledger.filter fun o => o.orderType ≠ "sell"
        cancelSellsSent := false
        scheduleSellRefresh := false
        recalcSellOrders := false } := by
  rcases Nat.eq_zero_or_pos pos.quantity with h | h <;>
    simp [onBalanceEvent, clearPendingOrdersOfType, h]

/-- Claim C6, counterexample: a reachable sequence — stop-loss execution
(87 shares at 8000), a partial fill of 37 shares removing the ledger entry,
then the balance event for the remaining 50 shares — ends with
stoplossTriggered true and quantity 50 > 0 while the ledger holds no
스탑로스 sell entry at all, so the claimed exactly-one invariant does not
hold at every reachable state. -/
theorem C6_counterexample :
    (executeStoploss posAfterRung1 8000 [] =
      some { position := posStoplossed, ledger := [stoplossEntry], orderQty := 87,
             orderPrice := 8000, cancelledAll := true }) ∧
    (onSellOrderExecuted (some posStoplossed) [stoplossEntry] 37 8000 =
      (some posStoplossed, [], true)) ∧
    ((onBalanceEvent (some posStoplossed) [] 50 8050 true).position.map
      Position.stoplossTriggered = some true) ∧
    ((onBalanceEvent (some posStoplossed) [] 50 8050 true).position.map
      Position.quantity = some 50) ∧
    ((onBalanceEvent (some posStoplossed) [] 50 8050 true).ledger.filter
      (fun o => o.orderType = "sell" ∧ o.targetName = some "스탑로스") = []) := by
  decide

/-- Claim C6 (amended): immediately after a stop-loss execution the
pending-order ledger contains exactly one 스탑로스 sell entry, with quantity
equal to the position's quantity and price equal to its stoplossPrice; the
invariant holds at that point but is broken again by the next partial-fill
execution event, which removes the entry while the flag stays set. -/
theorem C6_stoplossLedger (pos : Position) (cp : Nat) (ledger : List PendingOrder)
    (r : StoplossResult) (h : executeStoploss pos cp ledger = some r) :
    r.position.stoplossTriggered = true ∧
    r.position.quantity = pos.quantity ∧
    r.ledger.filter (fun o => o.orderType = "sell" ∧ o.targetName = some "스탑로스") =
      [{ orderType := "sell"
         quantity := r.position.quantity
         price := r.position.stoplossPrice
         buyCount := none
         targetName := some "스탑로스"
         persist := true }] := by
  obtain ⟨hq, hp, hpos, hled, -⟩ := executeStoploss_spec pos cp ledger r h
  have hposq : r.position.quantity = pos.quantity := by rw [hpos]
  have hpossp : r.position.stoplossPrice = r.orderPrice := by rw [hpos]
  refine ⟨by rw [hpos], hposq, ?_⟩
  rw [hled, List.filter_append]
  have h1 : (ledger.filter fun o => o.orderType ≠ "buy" ∧ o.orderType ≠ "sell").filter
      (fun o => o.orderType = "sell" ∧ o.targetName = some "스탑로스") = [] := by
    rw [List.filter_eq_nil]
    intro o ho
    have := List.of_mem_filter ho
    simp only [decide_eq_true_eq] at this ⊢
    rintro ⟨h2, -⟩
    exact this.2 h2
  rw [h1, List.nil_append]
  rw [hposq, hpossp]
  simp

/-- Witness for C6: the exactly-one property evaluated right after the
fixture stop-loss execution. -/
theorem C6_witness :
    posStoplossed.stoplossTriggered = true ∧ posStoplossed.quantity = 87 ∧
    [stoplossEntry].filter
      (fun o => o.orderType = "sell" ∧ o.targetName = some "스탑로스") =
      [stoplossEntry] := by
  have h : executeStoploss posAfterRung1 8000 [] =
      some { position := posStoplossed, ledger := [stoplossEntry], orderQty := 87,
             orderPrice := 8000, cancelledAll := true } := by decide
  have h2 := C6_stoplossLedger posAfterRung1 8000 [] _ h
  refine ⟨h2.1, ?_, ?_⟩
  · simpa [posAfterRung1] using h2.2.1
  · have h3 := h2.2.2
    simpa [stoplossEntry, posStoplossed] using h3

/-- Claim C7 (confirmed): for every call of the two sell-ladder planners —
`_calculate_sell_orders` with any avgPrice, initial/current quantities,
MA and soldTargets, and `check_sell_signals` on any held position — the sum
of the planned rung quantities never exceeds the current quantity. -/
theorem C7_ladderQuantityCap :
    (∀ (avgPrice initialQty currentQty : Nat) (ma20 : Option ℚ)
        (soldTargets : List String),
      ((calculateSellOrders avgPrice initialQty currentQty ma20 soldTargets).map
        SellOrder.quantity).sum ≤ currentQty) ∧
    (∀ (cfg : Config) (cp : Nat) (candles : List ℚ) (pos : Position),
      ((checkSellSignals cfg cp candles (some pos)).map SellOrder.quantity).sum ≤
        pos.quantity) := by
  constructor
  · intro avgPrice initialQty currentQty ma20 soldTargets
    simp only [calculateSellOrders]
    generalize (if initialQty * 3 / 10 = 0 then 1 else initialQty * 3 / 10) = q
    generalize ceilToTickQ ((avgPrice : ℚ) * (1 + (295 : ℚ) / 10000)) = p1
    generalize ceilToTickQ ((avgPrice : ℚ) * (1 + (495 : ℚ) / 10000)) = p2
    generalize ceilToTickQ ((avgPrice : ℚ) * (1 + (695 : ℚ) / 10000)) = p3
    have h := placeRungs_bound currentQty soldTargets
      [("익절1", q, p1), ("익절2", q, p2), ("익절3", q, p3)] 0
    cases ma20 with
    | none => simp only [List.map_append, List.sum_append]; simp; omega
    | some m =>
      simp only [List.map_append, List.sum_append]
      split_ifs <;> simp <;> omega
  · intro cfg cp candles pos
    simp only [checkSellSignals]
    split_ifs with h1 h2 h3 h4
    · simp
    · simp
    · simp
    all_goals
      split
      · rename_i q1 q2 q3 qMa heq
        generalize ceilToTickQ ((pos.avgPrice : ℚ) * (1 + (295 : ℚ) / 10000)) = p1
        generalize ceilToTickQ ((pos.avgPrice : ℚ) * (1 + (495 : ℚ) / 10000)) = p2
        generalize ceilToTickQ ((pos.avgPrice : ℚ) * (1 + (695 : ℚ) / 10000)) = p3
        have h := planOrders_bound pos.quantity pos.soldTargets
          [("익절1", q1, p1), ("익절2", q2, p2), ("익절3", q3, p3)] 0
        cases getMaFromCandles candles cfg.envelopePeriod with
        | none => simp only [List.map_append, List.sum_append]; simp; omega
        | some m =>
          simp only [List.map_append, List.sum_append]
          split_ifs <;> simp <;> omega
      · simp

/-- Claim C8, counterexample: the rounding helpers accept fractional prices
(the engine feeds them `avg·1.0295` etc.), and on 8000.5 the ceil helper
truncates first and returns 8000 < 8000.5, so `p ≤ ceilToTick(p)` fails for
an accepted price. -/
theorem C8_counterexample :
    ceilToTickQ ((16001 : ℚ) / 2) = 8000 ∧
    ¬ ((16001 : ℚ) / 2 ≤ (ceilToTickQ ((16001 : ℚ) / 2) : ℚ)) := by
  have h : ceilToTickQ ((16001 : ℚ) / 2) = 8000 := by
    norm_num [ceilToTickQ, ratTruncToNat]
    decide
  refine ⟨h, ?_⟩
  rw [h]
  norm_num

set_option maxHeartbeats 1600000 in
/-- Claim C8 (amended): for every integer price p, floorToTick(p) and
ceilToTick(p) are each divisible by the tick size of the band the result
lies in, floorToTick(p) ≤ p ≤ ceilToTick(p), and their difference is at most
twice the tick size at p; for fractional prices the helpers first truncate
to an integer, so the bracketing holds for int(p) rather than p itself. -/
theorem C8_tickRounding (p : Nat) :
    floorToTick p % getTickSize (floorToTick p) = 0 ∧
    ceilToTick p % getTickSize (ceilToTick p) = 0 ∧
    floorToTick p ≤ p ∧ p ≤ ceilToTick p ∧
    ceilToTick p - floorToTick p ≤ 2 * getTickSize p := by
  by_cases b1 : p < 1000
  · have ht : getTickSize p = 1 := by unfold getTickSize; split_ifs <;> omega
    have hf : floorToTick p = p / 1 * 1 := by unfold floorToTick; rw [ht]
    have hc : ceilToTick p = (p + 1 - 1) / 1 * 1 := by unfold ceilToTick; rw [ht]
    refine ⟨?_, ?_, ?_, ?_, ?_⟩
    · rw [hf]; unfold getTickSize; split_ifs <;> omega
    · rw [hc]; unfold getTickSize; split_ifs <;> omega
    · rw [hf]; omega
    · rw [hc]; omega
    · rw [hf, hc, ht]; omega
  by_cases b2 : p < 5000
  · have ht : getTickSize p = 5 := by unfold getTickSize; split_ifs <;> omega
    have hf : floorToTick p = p / 5 * 5 := by unfold floorToTick; rw [ht]
    have hc : ceilToTick p = (p + 5 - 1) / 5 * 5 := by unfold ceilToTick; rw [ht]
    refine ⟨?_, ?_, ?_, ?_, ?_⟩
    · rw [hf]; unfold getTickSize; split_ifs <;> omega
    · rw [hc]; unfold getTickSize; split_ifs <;> omega
    · rw [hf]; omega
    · rw [hc]; omega
    · rw [hf, hc, ht]; omega
  by_cases b3 : p < 10000
  · have ht : getTickSize p = 10 := by unfold getTickSize; split_ifs <;> omega
    have hf : floorToTick p = p / 10 * 10 := by unfold floorToTick; rw [ht]
    have hc : ceilToTick p = (p + 10 - 1) / 10 * 10 := by unfold ceilToTick; rw [ht]
    refine ⟨?_, ?_, ?_, ?_, ?_⟩
    · rw [hf]; unfold getTickSize; split_ifs <;> omega
    · rw [hc]; unfold getTickSize; split_ifs <;> omega
    · rw [hf]; omega
    · rw [hc]; omega
    · rw [hf, hc, ht]; omega
  by_cases b4 : p < 50000
  · have ht : getTickSize p = 50 := by unfold getTickSize; split_ifs <;> omega
    have hf : floorToTick p = p / 50 * 50 := by unfold floorToTick; rw [ht]
    have hc : ceilToTick p = (p + 50 - 1) / 50 * 50 := by unfold ceilToTick; rw [ht]
    refine ⟨?_, ?_, ?_, ?_, ?_⟩
    · rw [hf]; unfold getTickSize; split_ifs <;> omega
    · rw [hc]; unfold getTickSize; split_ifs <;> omega
    · rw [hf]; omega
    · rw [hc]; omega
    · rw [hf, hc, ht]; omega
  by_cases b5 : p < 100000
  · have ht : getTickSize p = 100 := by unfold getTickSize; split_ifs <;> omega
    have hf : floorToTick p = p / 100 * 100 := by unfold floorToTick; rw [ht]
    have hc : ceilToTick p = (p + 100 - 1) / 100 * 100 := by unfold ceilToTick; rw [ht]
    refine ⟨?_, ?_, ?_, ?_, ?_⟩
    · rw [hf]; unfold getTickSize; split_ifs <;> omega
    · rw [hc]; unfold getTickSize; split_ifs <;> omega
    · rw [hf]; omega
    · rw [hc]; omega
    · rw [hf, hc, ht]; omega
  by_cases b6 : p < 500000
  · have ht : getTickSize p = 500 := by unfold getTickSize; split_ifs <;> omega
    have hf : floorToTick p = p / 500 * 500 := by unfold floorToTick; rw [ht]
    have hc : ceilToTick p = (p + 500 - 1) / 500 * 500 := by unfold ceilToTick; rw [ht]
    refine ⟨?_, ?_, ?_, ?_, ?_⟩
    · rw [hf]; unfold getTickSize; split_ifs <;> omega
    · rw [hc]; unfold getTickSize; split_ifs <;> omega
    · rw [hf]; omega
    · rw [hc]; omega
    · rw [hf, hc, ht]; omega
  have ht : getTickSize p = 1000 := by unfold getTickSize; split_ifs <;> omega
  have hf : floorToTick p = p / 1000 * 1000 := by unfold floorToTick; rw [ht]
  have hc : ceilToTick p = (p + 1000 - 1) / 1000 * 1000 := by unfold ceilToTick; rw [ht]
  refine ⟨?_, ?_, ?_, ?_, ?_⟩
  · rw [hf]; unfold getTickSize; split_ifs <;> omega
  · rw [hc]; unfold getTickSize; split_ifs <;> omega
  · rw [hf]; omega
  · rw [hc]; omega
  · rw [hf, hc, ht]; omega

/-- Claim C9 (confirmed): for every valid sequence of `wait_if_needed` calls
(clock readings monotone, the at-capacity sleep honoured), every sliding
window of one second contains at most 5 recorded admissions. -/
theorem C9_slidingWindow (ts : List (ℚ × ℚ × ℚ)) (t0 : ℚ)
    (hvalid : rlValid [] t0 ts) (t : ℚ) :
    ((ts.map fun s => s.2.2).countP (inWindow t)) ≤ 5 := by
  have h := rl_aux ts [] [] t0 hvalid ⟨[], rfl, by simp⟩ (by simp) (by simp) t
  simpa using h

/-- Witness for C9: five admissions at time 0 fill the window; the sixth call
sleeps to 21/20 as `calls[0] + period − now + 0.05` dictates, and the window
(−1/2, 1/2] then holds exactly the 5 admissions allowed. -/
theorem C9_witness :
    rlValid [] 0 [(0, 0, 0), (0, 0, 0), (0, 0, 0), (0, 0, 0), (0, 0, 0),
      (1, 21/20, 21/20)] ∧
    (([(0, 0, 0), (0, 0, 0), (0, 0, 0), (0, 0, 0), (0, 0, 0),
        ((1 : ℚ), (21 : ℚ)/20, (21 : ℚ)/20)].map fun s => s.2.2).countP
      (inWindow (-1/2)) ≤ 5) := by
  have hval : rlValid [] 0 [(0, 0, 0), (0, 0, 0), (0, 0, 0), (0, 0, 0), (0, 0, 0),
      ((1 : ℚ), (21 : ℚ)/20, (21 : ℚ)/20)] := by
    norm_num [rlValid, rlStep, stepOk, prune]
  exact ⟨hval, C9_slidingWindow _ 0 hval (-1/2)⟩

/-- Claim C10 (confirmed): for every positive total and the hard-coded ratio
list [30, 30, 30, 10], `_compute_sell_plan_quantities` returns exactly the
four quantities ⌊total·0.30⌋, ⌊total·0.30⌋, ⌊total·0.30⌋ and the remainder,
summing to the total. -/
theorem C10_sellPlanSplit (total : Nat) (h : 0 < total) :
    computeSellPlanQuantities total [30, 30, 30, 10] =
      [total * 30 / 100, total * 30 / 100, total * 30 / 100,
        total - 3 * (total * 30 / 100)] ∧
    (computeSellPlanQuantities total [30, 30, 30, 10]).sum = total := by
  have e : sellPlanAux total [30, 30, 30, 10] 0 =
      [total * 30 / 100, total * 30 / 100, total * 30 / 100,
        total - (0 + total * 30 / 100 + total * 30 / 100 + total * 30 / 100)] := by
    simp [sellPlanAux]
  have hsum : (sellPlanAux total [30, 30, 30, 10] 0).sum = total := by
    rw [e]
    simp only [List.sum_cons, List.sum_nil]
    omega
  have hqs : computeSellPlanQuantities total [30, 30, 30, 10] =
      sellPlanAux total [30, 30, 30, 10] 0 := by
    unfold computeSellPlanQuantities
    rw [if_neg (by omega), if_neg (by rw [hsum]; omega)]
  refine ⟨?_, ?_⟩
  · rw [hqs, e]
    have hlast : total - (0 + total * 30 / 100 + total * 30 / 100 + total * 30 / 100) =
        total - 3 * (total * 30 / 100) := by omega
    rw [hlast]
  · rw [hqs, hsum]

/-- Witness for C10: the S2 quantity 124 splits into 37/37/37/13. -/
theorem C10_witness :
    computeSellPlanQuantities 124 [30, 30, 30, 10] = [37, 37, 37, 13] := by
  have h := C10_sellPlanSplit 124 (by norm_num)
  rw [h.1]
